import Mathlib

/-!
Shallow embedding of `neuralhydrology/datasetzoo/coloradoswe.py` (the
`ColoradoSWE` dataset loader) and proofs about its data-alignment,
unit-conversion and error-handling behaviour.

Modelling conventions
* A pandas cell is `Option ℚ`: `none` models `NaN` (a missing-marker),
  `some q` a finite numeric value.  Floating-point rounding is not part of
  any statement here; arithmetic is exact over ℚ.
* A calendar date is a `Nat`.  For the CAMELS/SWE tables it is encoded as
  `y*10000 + m*100 + d` (`mkDate`), whose numeric order agrees with
  chronological order on valid dates, so pandas label slicing by date
  strings is order comparison on the encoding.  For the HydroAtlas forcing
  loader the index is instead read as a day ordinal, so that `+1` is
  "next day" and `pd.date_range(lo, hi, freq='D')` is the integer range
  `[lo..hi]`; only daily granularity matters there.
* File I/O is abstracted: a function that reads a file takes the parsed
  content of that file as an argument, together with `Bool` flags for the
  existence checks the source performs, and glob results are passed as the
  list of parsed candidate files in glob order.
* Python exceptions are `Except PdError`; the constructor records which
  exception class the source raises.
-/

namespace ColoradoSWE

/-- The Python exception classes raised by `coloradoswe.py`:
`OSError` (missing directory / missing SWE file), `FileNotFoundError`
(no glob match), `RuntimeError` for a missing attribute csv,
`RuntimeError` for a basin in neither catalog, `ValueError` for basins
missing static attributes, pandas `KeyError` (`.loc` list indexer with
missing labels), and pandas/python `ValueError` from `min()`/`max()` of an
empty index. -/
inductive PdError where
  | missingDir : PdError
  | fileNotFound : PdError
  | runtimeFileNotFound : PdError
  | basinNotFound : PdError
  | missingAttributes : PdError
  | keyError : PdError
  | emptyIndexError : PdError
deriving DecidableEq, Repr

instance {ε α : Type _} [DecidableEq ε] [DecidableEq α] : DecidableEq (Except ε α) :=
  fun x y =>
    match x, y with
    | .error a, .error b =>
      if h : a = b then .isTrue (by rw [h]) else .isFalse (by simp [h])
    | .error _, .ok _ => .isFalse (by simp)
    | .ok _, .error _ => .isFalse (by simp)
    | .ok a, .ok b =>
      if h : a = b then .isTrue (by rw [h]) else .isFalse (by simp [h])

/-- Date encoding `y*10000 + m*100 + d`; numeric order = chronological
order for valid dates. -/
def mkDate (y m d : Nat) : Nat := y * 10000 + m * 100 + d

/-- One row of a date-indexed DataFrame: an association list from column
name to cell value. -/
abbrev Row := List (String × Option ℚ)

/-- A date-indexed pandas DataFrame: rows in index order, each row keyed
by its date. -/
structure Frame where
  rows : List (Nat × Row)
deriving DecidableEq, Repr

/-- `df.index` as a list of dates. -/
def Frame.index (df : Frame) : List Nat := df.rows.map (·.1)

/-- `df.columns`, read off the first row (all rows of a real DataFrame
share one column set; `Frame.Uniform` states that well-formedness). -/
def Frame.columns (df : Frame) : List String :=
  match df.rows with
  | [] => []
  | p :: _ => p.2.map (·.1)

/-- Well-formedness of a `Frame`: every row carries exactly the frame's
columns, as in a real DataFrame. -/
def Frame.Uniform (df : Frame) : Prop :=
  ∀ p ∈ df.rows, p.2.map (·.1) = df.columns

/-- Read the cell of row `r` at column `c`; an absent column reads as
`NaN` (only used where the source guarantees the column exists or has
just been created with `NaN` default). -/
def rowGet (r : Row) (c : String) : Option ℚ :=
  match r.find? (fun q => q.1 = c) with
  | some q => q.2
  | none => none

/-- Write value `v` at column `c` of row `r`: overwrite in place when the
column exists, append a new column otherwise (pandas column creation). -/
def rowSet (r : Row) (c : String) (v : Option ℚ) : Row :=
  if (r.find? (fun q => q.1 = c)).isSome then
    r.map (fun q => if q.1 = c then (c, v) else q)
  else
    r ++ [(c, v)]

/-- `df.loc[cutoff:]` — label slicing keeps the rows with date ≥ cutoff. -/
def Frame.locFrom (df : Frame) (cutoff : Nat) : Frame :=
  ⟨df.rows.filter (fun p => cutoff ≤ p.1)⟩

/-- A single date-indexed pandas Series (e.g. one column of the SWE csv). -/
abbrev DSeries := List (Nat × Option ℚ)

/-- `s.loc[:cutoff]` on a Series: keep entries with date ≤ cutoff. -/
def truncTo (cutoff : Nat) (s : DSeries) : DSeries :=
  s.filter (fun p => p.1 ≤ cutoff)

/-- Value of Series `s` at date `d` (`NaN` when the date is absent —
pandas alignment fills unmatched positions with `NaN`). -/
def seriesAt (s : DSeries) (d : Nat) : Option ℚ :=
  match s.find? (fun p => p.1 = d) with
  | some p => p.2
  | none => none

/-- `df.loc[keys, c] = src` where `keys` is a list-like of row labels and
`src` a Series aligned by index.  Pandas (≥ 1.0) raises `KeyError` as soon
as any label of a list-like `.loc` indexer is missing from the index
("Passing list-likes to .loc with any missing labels is no longer
supported"), for setting as for getting; this is the `.error .keyError`
branch.  Otherwise each row dated in `keys` receives the aligned source
value in column `c`, and the remaining rows keep their old value there
(`NaN` when `c` is a fresh column, from `rowGet` on the absent column). -/
def Frame.locSet (df : Frame) (keys : List Nat) (c : String) (src : Nat → Option ℚ) :
    Except PdError Frame :=
  if keys.all (fun k => k ∈ df.index) then
    .ok ⟨df.rows.map (fun p =>
      (p.1, rowSet p.2 c (if p.1 ∈ keys then src p.1 else rowGet p.2 c)))⟩
  else
    .error .keyError

/-- `load_all_discharge(data_dir, basin, area)`.  `files` is the parsed
content of every file matching the glob
`usgs_streamflow/**/{basin}_streamflow_qc.txt`, in glob order, each file
being the date-indexed `QObs` column (in cubic feet per second).  No
match raises `FileNotFoundError`; otherwise the first match is used and
`df.QObs = 28316846.592 * df.QObs * 86400 / (area * 10**6)` converts to
millimetres per day. -/
def load_all_discharge (files : List (List (Nat × ℚ))) (area : ℚ) :
    Except PdError (List (Nat × ℚ)) :=
  match files with
  | [] => .error .fileNotFound
  | f :: _ => .ok (f.map (fun p => (p.1, 28316846.592 * p.2 * 86400 / (area * 10 ^ 6))))

/-- `load_and_add_SWE_data_to_forcing(data_dir, df, basin)`.  The two SWE
csv files are abstracted to the basin's date-indexed column (`sweUA` the
`sum_{basin[1:]}` column of `co_camels_stats_all_years_20230814.csv`,
`snotel` the `{basin[1:]}` column of `co_camels_snotel_time_series.csv`),
with a `Bool` per file for the `swe_path.exists()` check (`OSError` when
false).  Each pass truncates its source to dates ≤ 2014-12-31, assigns the
column into `df` by `df.loc[source_dates, col] = source` (`Frame.locSet`),
then truncates `df` to start at 1999-10-01 (pass one) resp. 2000-10-01
(pass two). -/
def load_and_add_SWE_data_to_forcing (df : Frame)
    (sweUAExists : Bool) (sweUA : DSeries)
    (snotelExists : Bool) (snotel : DSeries) : Except PdError Frame :=
  if sweUAExists = false then .error .missingDir
  else
    match df.locSet ((truncTo (mkDate 2014 12 31) sweUA).map (·.1)) "co_swe_ua"
        (seriesAt (truncTo (mkDate 2014 12 31) sweUA)) with
    | .error e => .error e
    | .ok df1 =>
      if snotelExists = false then .error .missingDir
      else
        match (df1.locFrom (mkDate 1999 10 1)).locSet
            ((truncTo (mkDate 2014 12 31) snotel).map (·.1)) "co_swe_snotel"
            (seriesAt (truncTo (mkDate 2014 12 31) snotel)) with
        | .error e => .error e
        | .ok df3 => .ok (df3.locFrom (mkDate 2000 10 1))

/-- `load_camels_daily_forcings(data_dir, basin_id, forcings)`.
`dirExists` is the `forcing_path.is_dir()` check (`OSError` when false);
`files` is the parsed content (daily table and integer header area) of
every file matching `**/{basin_id}_*_forcing_leap.txt` in glob order: no
match raises `FileNotFoundError`, otherwise the first match is used. -/
def load_camels_daily_forcings (dirExists : Bool) (files : List (Frame × Int)) :
    Except PdError (Frame × Int) :=
  if dirExists = false then .error .missingDir
  else
    match files with
    | [] => .error .fileNotFound
    | f :: _ => .ok f

/-- The fixed five HydroAtlas forcing column names, in source order. -/
def hydroCols : List String :=
  ["apcpsfc", "dswrfsfc", "pressfc", "tmp2m_max", "tmp2m_min"]

/-- `csv[[basin]].rename(...)`: select the basin's column from one
per-variable csv (date-indexed, one column per basin); the rename to the
variable name is carried by position in `hydro_concat`. -/
def selectBasinColumn (csv : Frame) (basin : String) : DSeries :=
  csv.rows.map (fun p => (p.1, rowGet p.2 basin))

/-- `pd.concat([...], axis=1)` of the five selected single-column tables:
outer join of the five date indexes (deduplicated union), each date's row
holding the five variables, `NaN` where a source lacks the date. -/
def hydro_concat (a b c d e : DSeries) : Frame :=
  let idx := (a.map (·.1) ++ b.map (·.1) ++ c.map (·.1) ++ d.map (·.1) ++ e.map (·.1)).dedup
  ⟨idx.map (fun t =>
    (t, [("apcpsfc", seriesAt a t), ("dswrfsfc", seriesAt b t),
         ("pressfc", seriesAt c t), ("tmp2m_max", seriesAt d t),
         ("tmp2m_min", seriesAt e t)]))⟩

/-- `pd.date_range(start=lo, end=hi, freq='D')` over day ordinals:
the integer range `[lo..hi]`. -/
def dateRange (lo hi : Nat) : List Nat := (List.range (hi + 1 - lo)).map (· + lo)

/-- `combined_df.reindex(pd.date_range(min(index), max(index)))`: the new
index is the complete daily range; dates present keep their row, absent
dates get `NaN` in every column of `cols`. -/
def reindexDaily (f : Frame) (cols : List String) (lo hi : Nat) : Frame :=
  ⟨(dateRange lo hi).map (fun t =>
    (t, match f.rows.find? (fun p => p.1 = t) with
        | some p => p.2
        | none => cols.map (fun c => (c, (none : Option ℚ)))))⟩

/-- `load_hydroatlas12_daily_forcing(data_dir, basin)`.  The five
per-variable csv files are passed parsed (`apcp`..`tmin`); the basin's
column is selected from each (its presence in the csvs is assumed, as for
an auxiliary-catalog basin), the five are concatenated column-wise, and
the result is reindexed onto the complete daily calendar from the minimum
to the maximum observed date.  `min()`/`max()` of an empty index raises
(`.error .emptyIndexError`). -/
def load_hydroatlas12_daily_forcing (apcp dswrf pres tmax tmin : Frame)
    (basin : String) : Except PdError Frame :=
  let combined := hydro_concat (selectBasinColumn apcp basin)
      (selectBasinColumn dswrf basin) (selectBasinColumn pres basin)
      (selectBasinColumn tmax basin) (selectBasinColumn tmin basin)
  match combined.index.min?, combined.index.max? with
  | some lo, some hi => .ok (reindexDaily combined hydroCols lo hi)
  | _, _ => .error .emptyIndexError

/-- `load_basin_forcings(data_dir, basin_id, forcings)`.  The two basin
catalogs are the line lists of `list_671_camels_basins.txt` (CAMELS) and
`list_colorado_hydroatlas_basins.txt` (HydroAtlas).  A CAMELS basin takes
the `load_camels_daily_forcings` + SWE-enrichment path with the header
area; otherwise a HydroAtlas basin takes `load_hydroatlas12_daily_forcing`
with the placeholder area 1; a basin in neither catalog raises
`RuntimeError("Basin ID not found in either CAMELS Nor HydroAtlas")`. -/
def load_basin_forcings (camelsBasins hydroatlasBasins : List String) (basin_id : String)
    (dirExists : Bool) (camelsFiles : List (Frame × Int))
    (sweUAExists : Bool) (sweUA : DSeries) (snotelExists : Bool) (snotel : DSeries)
    (apcp dswrf pres tmax tmin : Frame) : Except PdError (Frame × Int) :=
  if basin_id ∈ camelsBasins then
    match load_camels_daily_forcings dirExists camelsFiles with
    | .error e => .error e
    | .ok (df, area) =>
      match load_and_add_SWE_data_to_forcing df sweUAExists sweUA snotelExists snotel with
      | .error e => .error e
      | .ok df2 => .ok (df2, area)
  else if basin_id ∈ hydroatlasBasins then
    match load_hydroatlas12_daily_forcing apcp dswrf pres tmax tmin basin_id with
    | .error e => .error e
    | .ok df => .ok (df, 1)
  else
    .error .basinNotFound

/-- A basin-indexed attribute table: rows keyed by `gauge_id`. -/
abbrev AttrRows := List (String × Row)

/-- A basin-indexed table that also remembers its column set, so that an
empty table (after filtering) still carries columns into a join — as an
empty pandas DataFrame does. -/
structure AuxTable where
  cols : List String
  rows : AttrRows
deriving DecidableEq, Repr

/-- The `huc` normalization of `load_camels_attributes`:
`df['huc'] = df['huc_02'].apply(lambda x: str(x).zfill(2))` followed by
`df.drop('huc_02', axis=1)` — the new `huc` column is appended and the raw
`huc_02` column removed.  The `zfill` zero-padding is string formatting of
the same value and is modelled as the value itself. -/
def hucProcess (r : Row) : Row :=
  (r.filter (fun q => q.1 ≠ "huc_02")) ++ [("huc", rowGet r "huc_02")]

/-- `load_camels_attributes(data_dir, basins)`.  `dirExists` is the
`attributes_path.exists()` check (`RuntimeError` when false); `camelsRaw`
is the parsed column-wise concatenation of the `camels_*.txt` files, keyed
by `gauge_id`.  Note the `basins` argument is accepted and never used, as
in the source: the full table is returned. -/
def load_camels_attributes (dirExists : Bool) (camelsRaw : AttrRows)
    (basins : List String) : Except PdError AttrRows :=
  if dirExists = false then .error .runtimeFileNotFound
  else
    let _basins := basins
    .ok (camelsRaw.map (fun p => (p.1, hucProcess p.2)))

/-- `load_camels_hydroatlas(data_dir, basins)`.  The two csv files are
passed parsed (`hyRaw`, `pcaRaw`), with a `Bool` each for the
`is_file()` check (`RuntimeError("File not found ...")` when false); both
tables are filtered to the rows whose `gauge_id` is in `basins`
(`df[df.index.isin(basins)]`). -/
def load_camels_hydroatlas (hyExists pcaExists : Bool) (hyRaw pcaRaw : AuxTable)
    (basins : List String) : Except PdError (AuxTable × AuxTable) :=
  if hyExists = false then .error .runtimeFileNotFound
  else if pcaExists = false then .error .runtimeFileNotFound
  else
    .ok (⟨hyRaw.cols, hyRaw.rows.filter (fun p => p.1 ∈ basins)⟩,
         ⟨pcaRaw.cols, pcaRaw.rows.filter (fun p => p.1 ∈ basins)⟩)

/-- `df.join(aux, how='left')`: every left row is kept; a matching right
row (first match — `gauge_id`s are unique in the real files) contributes
its cells, an unmatched left row gets `NaN` in every right column. -/
def joinLeft (df : AttrRows) (t : AuxTable) : AttrRows :=
  df.map (fun p =>
    (p.1, p.2 ++ (match t.rows.find? (fun q => q.1 = p.1) with
                  | some q => q.2
                  | none => t.cols.map (fun c => (c, (none : Option ℚ))))))

/-- `add_hydroatlas_attributes_to_camels(df, hydroatlas_df,
hydroatlas_pca_df)`: two successive left joins onto the CAMELS table. -/
def add_hydroatlas_attributes_to_camels (df : AttrRows) (hy pca : AuxTable) : AttrRows :=
  joinLeft (joinLeft df hy) pca

/-- `load_all_attributes(data_dir, basins)`.  The two catalog line lists
and the parsed attribute files are passed in as for the loaders above.
The source splits `basins` into `camels_basins` and `hydroatlas_basins`
by catalog membership (the latter list is computed and never used), loads
CAMELS attributes, joins the HydroAtlas attribute tables filtered to
`camels_basins`, and — only when `basins` is non-empty — raises
`ValueError('Some basins are missing static attributes.')` if any
requested basin has no row, else restricts to `df.loc[basins]` (every row
matching each requested label, in request order). -/
def load_all_attributes (camelsList hydroList : List String)
    (attrDirExists : Bool) (camelsRaw : AttrRows)
    (hyExists pcaExists : Bool) (hyRaw pcaRaw : AuxTable)
    (basins : List String) : Except PdError AttrRows :=
  let camels_basins := basins.filter (fun b => b ∈ camelsList)
  let _hydroatlas_basins := basins.filter (fun b => b ∈ hydroList)
  match load_camels_attributes attrDirExists camelsRaw camels_basins with
  | .error e => .error e
  | .ok df =>
    match load_camels_hydroatlas hyExists pcaExists hyRaw pcaRaw camels_basins with
    | .error e => .error e
    | .ok (hy, pca) =>
      let df := add_hydroatlas_attributes_to_camels df hy pca
      if basins.isEmpty then .ok df
      else if basins.any (fun b => b ∉ df.map (·.1)) then .error .missingAttributes
      else .ok (basins.flatMap (fun b => df.filter (fun p => p.1 = b)))

/-- The negative-discharge cleaning step of `ColoradoSWE._load_basin_data`:
`qobs_cols = [col for col in df.columns if "qobs" in col.lower()]`, then
for each such column `df.loc[df[col] < 0, col] = np.nan`.  A `NaN` cell
compares false under `< 0` and is left alone; the per-column sequential
updates touch disjoint cells, so they are one simultaneous cell map. -/
def strContainsQobs (c : String) : Bool :=
  c.toLower.toList.tails.any (fun t => "qobs".toList.isPrefixOf t)

/-- `v < 0` on a cell, with pandas `NaN < 0 = False`. -/
def cellNeg (v : Option ℚ) : Bool :=
  match v with
  | some q => decide (q < 0)
  | none => false

/-- The cleaning step itself (see `strContainsQobs`); `qobs_cols` is
`df.columns.filter strContainsQobs`. -/
def replace_invalid_discharge (df : Frame) : Frame :=
  ⟨df.rows.map (fun p =>
    (p.1, p.2.map (fun q =>
      if q.1 ∈ df.columns.filter (fun c => strContainsQobs c) ∧ cellNeg q.2
      then (q.1, none) else q)))⟩

/-- C1: every discharge value returned by `load_all_discharge` is the
source cubic-feet-per-second value transformed by exactly
`28316846.592 * flow * 86400 / (area * 1e6)`; in particular flow = 1000
cfs with area = 500 km² yields `28316846.592*1000*86400/(500*1e6)
= 4893151.0910976`. -/
theorem discharge_conversion_exact (f : List (Nat × ℚ)) (rest : List (List (Nat × ℚ)))
    (area : ℚ) :
    load_all_discharge (f :: rest) area =
      .ok (f.map (fun p => (p.1, 28316846.592 * p.2 * 86400 / (area * 10 ^ 6)))) ∧
    load_all_discharge [[(0, 1000)]] 500 = .ok [(0, 4893151.0910976)] := by
  refine ⟨rfl, ?_⟩
  have h : (28316846.592 : ℚ) * 1000 * 86400 / (500 * 10 ^ 6) = 4893151.0910976 := by
    norm_num
  simp [load_all_discharge, h]

/-! ### Helper lemmas -/

theorem zip_map_self {α β : Type _} (f : α → β) (l : List α) :
    ∀ pq ∈ (l.map f).zip l, pq.1 = f pq.2 ∧ pq.2 ∈ l := by
  induction l with
  | nil => intro pq h; simp at h
  | cons a t ih =>
    intro pq h
    simp only [List.map_cons, List.zip_cons_cons, List.mem_cons] at h
    rcases h with rfl | h
    · exact ⟨rfl, List.mem_cons_self _ _⟩
    · obtain ⟨h1, h2⟩ := ih pq h
      exact ⟨h1, List.mem_cons_of_mem _ h2⟩

theorem le_of_mem_locFrom {df : Frame} {c d : Nat} (h : d ∈ (df.locFrom c).index) :
    c ≤ d := by
  simp only [Frame.locFrom, Frame.index, List.mem_map] at h
  obtain ⟨p, hp, rfl⟩ := h
  exact of_decide_eq_true (List.mem_filter.mp hp).2

/-- C2: whenever `load_and_add_SWE_data_to_forcing` returns a table, every
date of its index is on or after 2000-10-01: the second pass's final
truncation `df.loc["2000-10-01":]` wins over the first pass's 1999-10-01
truncation, whatever the input table's original start date. -/
theorem swe_truncation_start_date (df : Frame) (sweUAExists : Bool) (sweUA : DSeries)
    (snotelExists : Bool) (snotel : DSeries) (out : Frame) (d : Nat)
    (h : load_and_add_SWE_data_to_forcing df sweUAExists sweUA snotelExists snotel = .ok out)
    (hd : d ∈ out.index) : mkDate 2000 10 1 ≤ d := by
  unfold load_and_add_SWE_data_to_forcing at h
  split at h
  · exact absurd h (by simp)
  · split at h
    · exact absurd h (by simp)
    · split at h
      · exact absurd h (by simp)
      · split at h
        · exact absurd h (by simp)
        · rw [Except.ok.injEq] at h
          subst h
          exact le_of_mem_locFrom hd

theorem swe_truncation_start_date_witness : mkDate 2000 10 1 ≤ mkDate 2000 10 5 :=
  swe_truncation_start_date ⟨[(mkDate 2000 10 5, [("prcp", some 1)])]⟩
    true [(mkDate 2000 10 5, some 2)] true [(mkDate 2000 10 5, some 3)]
    ⟨[(mkDate 2000 10 5,
        [("prcp", some 1), ("co_swe_ua", some 2), ("co_swe_snotel", some 3)])]⟩
    (mkDate 2000 10 5) (by decide) (by decide)

/-- C4: a basin identifier that is a member of neither the CAMELS catalog
nor the HydroAtlas catalog makes `load_basin_forcings` raise the
`RuntimeError` "Basin ID not found in either CAMELS Nor HydroAtlas"
rather than return a table. -/
theorem basin_not_in_either_catalog_fails (camelsBasins hydroatlasBasins : List String)
    (basin_id : String) (dirExists : Bool) (camelsFiles : List (Frame × Int))
    (sweUAExists : Bool) (sweUA : DSeries) (snotelExists : Bool) (snotel : DSeries)
    (apcp dswrf pres tmax tmin : Frame)
    (h1 : basin_id ∉ camelsBasins) (h2 : basin_id ∉ hydroatlasBasins) :
    load_basin_forcings camelsBasins hydroatlasBasins basin_id dirExists camelsFiles
      sweUAExists sweUA snotelExists snotel apcp dswrf pres tmax tmin =
      .error .basinNotFound := by
  simp [load_basin_forcings, h1, h2]

theorem basin_not_in_either_catalog_fails_witness :
    load_basin_forcings ["01013500"] ["102900010000"] "09034900" true []
      true [] true [] ⟨[]⟩ ⟨[]⟩ ⟨[]⟩ ⟨[]⟩ ⟨[]⟩ = .error .basinNotFound :=
  basin_not_in_either_catalog_fails ["01013500"] ["102900010000"] "09034900" true []
    true [] true [] ⟨[]⟩ ⟨[]⟩ ⟨[]⟩ ⟨[]⟩ ⟨[]⟩ (by decide) (by decide)

/-- C6: in `load_camels_daily_forcings`, a missing product subdirectory
raises the missing-directory `OSError`; with the directory present, zero
glob matches raise `FileNotFoundError` and one or more matches silently
use the first match in glob order.  `load_all_discharge` applies the same
zero-match failure policy (and succeeds on any non-empty match list). -/
theorem forcing_glob_policy (files : List (Frame × Int)) (f : Frame × Int)
    (rest : List (Frame × Int)) (g : List (Nat × ℚ)) (grest : List (List (Nat × ℚ)))
    (area : ℚ) :
    load_camels_daily_forcings false files = .error .missingDir ∧
    load_camels_daily_forcings true [] = .error .fileNotFound ∧
    load_camels_daily_forcings true (f :: rest) = .ok f ∧
    load_all_discharge [] area = .error .fileNotFound ∧
    (∃ outQ, load_all_discharge (g :: grest) area = .ok outQ) :=
  ⟨rfl, rfl, rfl, rfl, ⟨_, rfl⟩⟩

/-- C9: a basin identifier present in the CAMELS catalog always takes the
primary path — `load_camels_daily_forcings` (whose header area is
returned) followed by SWE enrichment — whatever the HydroAtlas catalog
and HydroAtlas source files contain: the CAMELS membership test
short-circuits the HydroAtlas one. -/
theorem camels_membership_short_circuits (camelsBasins hydroatlasBasins : List String)
    (basin_id : String) (dirExists : Bool) (camelsFiles : List (Frame × Int))
    (sweUAExists : Bool) (sweUA : DSeries) (snotelExists : Bool) (snotel : DSeries)
    (apcp dswrf pres tmax tmin : Frame)
    (h : basin_id ∈ camelsBasins) :
    load_basin_forcings camelsBasins hydroatlasBasins basin_id dirExists camelsFiles
      sweUAExists sweUA snotelExists snotel apcp dswrf pres tmax tmin =
      (match load_camels_daily_forcings dirExists camelsFiles with
       | .error e => .error e
       | .ok (df, area) =>
         match load_and_add_SWE_data_to_forcing df sweUAExists sweUA snotelExists snotel with
         | .error e => .error e
         | .ok df2 => .ok (df2, area)) := by
  simp [load_basin_forcings, h]

theorem camels_membership_short_circuits_witness :
    load_basin_forcings ["09034900"] ["09034900"] "09034900" true
      [(⟨[(mkDate 2000 10 5, [("prcp", some 1)])]⟩, 7)]
      true [] true [] ⟨[(3, [("09034900", some 4)])]⟩ ⟨[]⟩ ⟨[]⟩ ⟨[]⟩ ⟨[]⟩ =
      (match load_camels_daily_forcings true
          [(⟨[(mkDate 2000 10 5, [("prcp", some 1)])]⟩, 7)] with
       | .error e => .error e
       | .ok (df, area) =>
         match load_and_add_SWE_data_to_forcing df true [] true [] with
         | .error e => .error e
         | .ok df2 => .ok (df2, area)) :=
  camels_membership_short_circuits ["09034900"] ["09034900"] "09034900" true
    [(⟨[(mkDate 2000 10 5, [("prcp", some 1)])]⟩, 7)]
    true [] true [] ⟨[(3, [("09034900", some 4)])]⟩ ⟨[]⟩ ⟨[]⟩ ⟨[]⟩ ⟨[]⟩ (by decide)

theorem rowGet_eq_none_of_find?_none {r : Row} {c : String}
    (h : r.find? (fun q => q.1 = c) = none) : rowGet r c = none := by
  unfold rowGet
  rw [h]

theorem rowGet_cons_ne {a : String × Option ℚ} {t : Row} {c : String} (ha : ¬a.1 = c) :
    rowGet (a :: t) c = rowGet t c := by
  unfold rowGet
  rw [List.find?_cons_of_neg _ (by simp [ha])]

theorem rowGet_cons_self {a : String × Option ℚ} {t : Row} {c : String} (ha : a.1 = c) :
    rowGet (a :: t) c = a.2 := by
  unfold rowGet
  rw [List.find?_cons_of_pos _ (by simp [ha])]

theorem rowGet_append_self {r : Row} {c : String} {v : Option ℚ}
    (hfind : r.find? (fun q => q.1 = c) = none) :
    rowGet (r ++ [(c, v)]) c = v := by
  induction r with
  | nil => simp [rowGet]
  | cons a t ih =>
    by_cases ha : a.1 = c
    · rw [List.find?_cons_of_pos _ (by simp [ha])] at hfind
      exact absurd hfind (by simp)
    · rw [List.find?_cons_of_neg _ (by simp [ha])] at hfind
      rw [List.cons_append, rowGet_cons_ne ha]
      exact ih hfind

theorem rowGet_append_ne {r : Row} {c c' : String} {v : Option ℚ} (hne : ¬c' = c) :
    rowGet (r ++ [(c, v)]) c' = rowGet r c' := by
  induction r with
  | nil =>
    show rowGet [(c, v)] c' = rowGet [] c'
    rw [rowGet_cons_ne (fun h => hne h.symm)]
  | cons a t ih =>
    by_cases ha : a.1 = c'
    · rw [List.cons_append, rowGet_cons_self ha, rowGet_cons_self ha]
    · rw [List.cons_append, rowGet_cons_ne ha, rowGet_cons_ne ha]
      exact ih

/-- C5 counterexample: an enrichment-source date (2000-10-06, within the
2014-12-31 cutoff) absent from the target table is not silently
ignored — the pass raises the pandas missing-label `KeyError` instead of
performing a no-op assignment. -/
theorem swe_unmatched_source_date_not_ignored :
    load_and_add_SWE_data_to_forcing ⟨[(mkDate 2000 10 5, [("prcp", some 1)])]⟩
      true [(mkDate 2000 10 6, some 2)] true [] = .error .keyError := by decide

/-- C5 (amended): in each SWE enrichment pass the basin's column is
assigned into the target table by date-matched left-assignment onto a
fresh column: no rows are added, target dates absent from the enrichment
source receive missing-markers, and matched dates receive the
source value — but enrichment-source dates absent from the target table
are not silently ignored: any unmatched label makes the list-indexer
assignment raise a pandas `KeyError`, so the pass succeeds only when
every (truncated) source date occurs in the target index. -/
theorem swe_assignment_left_matched (df : Frame) (keys : List Nat) (c : String)
    (src : Nat → Option ℚ)
    (hfresh : ∀ p ∈ df.rows, p.2.find? (fun q => q.1 = c) = none) :
    (¬(∀ k ∈ keys, k ∈ df.index) → df.locSet keys c src = .error .keyError) ∧
    ((∀ k ∈ keys, k ∈ df.index) →
      ∃ out, df.locSet keys c src = .ok out ∧
        out.index = df.index ∧
        out.rows.length = df.rows.length ∧
        ∀ pq ∈ out.rows.zip df.rows,
          pq.1.1 = pq.2.1 ∧
          rowGet pq.1.2 c = (if pq.2.1 ∈ keys then src pq.2.1 else none) ∧
          ∀ c', ¬c' = c → rowGet pq.1.2 c' = rowGet pq.2.2 c') := by
  constructor
  · intro hmiss
    unfold Frame.locSet
    rw [if_neg]
    intro hall
    exact hmiss (fun k hk => of_decide_eq_true (List.all_eq_true.mp hall k hk))
  · intro hsub
    unfold Frame.locSet
    rw [if_pos (List.all_eq_true.mpr (fun k hk => decide_eq_true (hsub k hk)))]
    refine ⟨_, rfl, ?_, by simp, ?_⟩
    · simp [Frame.index]
    · intro pq hpq
      obtain ⟨h1, h2⟩ := zip_map_self _ _ pq hpq
      have hf := hfresh pq.2 h2
      have hset : rowSet pq.2.2 c (if pq.2.1 ∈ keys then src pq.2.1 else rowGet pq.2.2 c)
          = pq.2.2 ++ [(c, if pq.2.1 ∈ keys then src pq.2.1 else none)] := by
        unfold rowSet
        rw [if_neg (by simp [hf]), rowGet_eq_none_of_find?_none hf]
      rw [h1]
      refine ⟨rfl, ?_, ?_⟩
      · show rowGet (rowSet pq.2.2 c _) c = _
        rw [hset, rowGet_append_self hf]
      · intro c' hc'
        show rowGet (rowSet pq.2.2 c _) c' = _
        rw [hset, rowGet_append_ne hc']

theorem swe_assignment_left_matched_witness :
    (¬(∀ k ∈ [(1 : Nat)],
        k ∈ Frame.index ⟨[(1, [("prcp", some 5)]), (2, [("prcp", some 6)])]⟩) →
      Frame.locSet ⟨[(1, [("prcp", some 5)]), (2, [("prcp", some 6)])]⟩ [1] "co_swe_ua"
        (seriesAt [(1, some 9)]) = .error .keyError) ∧
    ((∀ k ∈ [(1 : Nat)],
        k ∈ Frame.index ⟨[(1, [("prcp", some 5)]), (2, [("prcp", some 6)])]⟩) →
      ∃ out,
        Frame.locSet ⟨[(1, [("prcp", some 5)]), (2, [("prcp", some 6)])]⟩ [1] "co_swe_ua"
          (seriesAt [(1, some 9)]) = .ok out ∧
        out.index = Frame.index ⟨[(1, [("prcp", some 5)]), (2, [("prcp", some 6)])]⟩ ∧
        out.rows.length =
          (Frame.rows ⟨[(1, [("prcp", some 5)]), (2, [("prcp", some 6)])]⟩).length ∧
        ∀ pq ∈ out.rows.zip (Frame.rows ⟨[(1, [("prcp", some 5)]), (2, [("prcp", some 6)])]⟩),
          pq.1.1 = pq.2.1 ∧
          rowGet pq.1.2 "co_swe_ua" =
            (if pq.2.1 ∈ [(1 : Nat)] then seriesAt [(1, some 9)] pq.2.1 else none) ∧
          ∀ c', ¬c' = "co_swe_ua" → rowGet pq.1.2 c' = rowGet pq.2.2 c') :=
  swe_assignment_left_matched ⟨[(1, [("prcp", some 5)]), (2, [("prcp", some 6)])]⟩
    [1] "co_swe_ua" (seriesAt [(1, some 9)]) (by decide)

/-- C7: in the per-basin load's cleaning step, every cell of a column
whose name contains "qobs" case-insensitively that holds a negative value
is replaced by `NaN`, and every other cell — non-negative or `NaN` cells
of qobs columns, and all cells of all other columns — is left unchanged;
dates and row/column counts are untouched. -/
theorem negative_qobs_cleaning (df : Frame) (hU : df.Uniform) :
    (replace_invalid_discharge df).rows.length = df.rows.length ∧
    ∀ pq ∈ (replace_invalid_discharge df).rows.zip df.rows,
      pq.1.1 = pq.2.1 ∧ pq.1.2.length = pq.2.2.length ∧
      ∀ cc ∈ pq.1.2.zip pq.2.2,
        cc.1 = (if strContainsQobs cc.2.1 ∧ cellNeg cc.2.2 then (cc.2.1, none) else cc.2) := by
  unfold replace_invalid_discharge
  refine ⟨by simp, ?_⟩
  intro pq hpq
  obtain ⟨h1, h2⟩ := zip_map_self _ _ pq hpq
  have hcols := hU pq.2 h2
  refine ⟨by rw [h1], by rw [h1]; simp, ?_⟩
  intro cc hcc
  rw [h1] at hcc
  obtain ⟨c1, c2⟩ := zip_map_self _ _ cc hcc
  rw [c1]
  have hmemcols : cc.2.1 ∈ df.columns := by
    rw [← hcols]
    exact List.mem_map_of_mem _ c2
  by_cases hq : strContainsQobs cc.2.1
  · have hmem : cc.2.1 ∈ df.columns.filter (fun c => strContainsQobs c) :=
      List.mem_filter.mpr ⟨hmemcols, hq⟩
    by_cases hneg : cellNeg cc.2.2
    · rw [if_pos ⟨hmem, hneg⟩, if_pos ⟨hq, hneg⟩]
    · rw [if_neg (fun hc => hneg hc.2), if_neg (fun hc => hneg hc.2)]
  · have hnot : cc.2.1 ∉ df.columns.filter (fun c => strContainsQobs c) :=
      fun hc => hq (List.mem_filter.mp hc).2
    rw [if_neg (fun hc => hnot hc.1), if_neg (fun hc => hq hc.1)]

theorem negative_qobs_cleaning_witness :
    (replace_invalid_discharge
        ⟨[(1, [("QObs(mm/d)", some (-1)), ("prcp", some (-2))])]⟩).rows.length =
      (Frame.rows ⟨[(1, [("QObs(mm/d)", some (-1)), ("prcp", some (-2))])]⟩).length ∧
    ∀ pq ∈ (replace_invalid_discharge
        ⟨[(1, [("QObs(mm/d)", some (-1)), ("prcp", some (-2))])]⟩).rows.zip
          (Frame.rows ⟨[(1, [("QObs(mm/d)", some (-1)), ("prcp", some (-2))])]⟩),
      pq.1.1 = pq.2.1 ∧ pq.1.2.length = pq.2.2.length ∧
      ∀ cc ∈ pq.1.2.zip pq.2.2,
        cc.1 = (if strContainsQobs cc.2.1 ∧ cellNeg cc.2.2 then (cc.2.1, none) else cc.2) :=
  negative_qobs_cleaning ⟨[(1, [("QObs(mm/d)", some (-1)), ("prcp", some (-2))])]⟩
    (by unfold Frame.Uniform; decide)

theorem joinLeft_map_fst (l : AttrRows) (t : AuxTable) :
    (joinLeft l t).map (·.1) = l.map (·.1) := by
  unfold joinLeft
  rw [List.map_map]
  rfl

theorem filter_fst_eq_singleton {l : AttrRows} {b : String}
    (hnd : (l.map (·.1)).Nodup) (hb : b ∈ l.map (·.1)) :
    (l.filter (fun p => p.1 = b)).map (·.1) = [b] := by
  induction l with
  | nil => simp at hb
  | cons a t ih =>
    simp only [List.map_cons, List.nodup_cons] at hnd
    by_cases ha : a.1 = b
    · have htnone : t.filter (fun p => p.1 = b) = [] := by
        rw [List.filter_eq_nil_iff]
        intro p hp hpb
        exact hnd.1 (ha ▸ (of_decide_eq_true hpb) ▸ List.mem_map_of_mem _ hp)
      rw [List.filter_cons_of_pos (by simp [ha]), htnone]
      simp [ha]
    · rw [List.filter_cons_of_neg (by simp [ha])]
      rcases List.mem_cons.mp hb with hba | hbt
      · exact absurd hba.symm ha
      · exact ih hnd.2 hbt

theorem flatMap_filter_map_fst {J : AttrRows} {basins : List String}
    (hnd : (J.map (·.1)).Nodup) (hall : ∀ b ∈ basins, b ∈ J.map (·.1)) :
    (basins.flatMap (fun b => J.filter (fun p => p.1 = b))).map (·.1) = basins := by
  induction basins with
  | nil => simp
  | cons a t ih =>
    rw [List.flatMap_cons, List.map_append,
      filter_fst_eq_singleton hnd (hall a (List.mem_cons_self a t)),
      ih (fun b hb => hall b (List.mem_cons_of_mem _ hb))]
    rfl

/-- C3: for a non-empty requested basin list (attribute files present),
`load_all_attributes` raises the `ValueError` "Some basins are missing
static attributes." exactly when some requested basin has no row in the
joined attribute table; when every requested basin has a row, the result
is returned with exactly one row per requested basin, in request order —
no requested basin is silently dropped.  (`gauge_id`s of the parsed CAMELS
attribute table are unique, as in the real attribute files.) -/
theorem attributes_missing_basin_validation (camelsList hydroList : List String)
    (camelsRaw : AttrRows) (hyRaw pcaRaw : AuxTable) (basins : List String)
    (hne : basins ≠ []) (hnd : (camelsRaw.map (·.1)).Nodup)
    (df : AttrRows) (hy pca : AuxTable)
    (hdf : load_camels_attributes true camelsRaw
      (basins.filter (fun b => b ∈ camelsList)) = .ok df)
    (hhy : load_camels_hydroatlas true true hyRaw pcaRaw
      (basins.filter (fun b => b ∈ camelsList)) = .ok (hy, pca)) :
    (load_all_attributes camelsList hydroList true camelsRaw true true hyRaw pcaRaw basins =
        .error .missingAttributes ↔
      ∃ b ∈ basins, b ∉ (add_hydroatlas_attributes_to_camels df hy pca).map (·.1)) ∧
    ((∀ b ∈ basins, b ∈ (add_hydroatlas_attributes_to_camels df hy pca).map (·.1)) →
      ∃ out,
        load_all_attributes camelsList hydroList true camelsRaw true true hyRaw pcaRaw basins =
          .ok out ∧
        out.map (·.1) = basins) := by
  have hdf' : df = camelsRaw.map (fun p => (p.1, hucProcess p.2)) := by
    unfold load_camels_attributes at hdf
    rw [if_neg (by simp)] at hdf
    exact (Except.ok.injEq _ _ ▸ hdf).symm
  have hempty : basins.isEmpty = false := by
    cases basins with
    | nil => exact absurd rfl hne
    | cons a t => rfl
  simp only [load_all_attributes, hdf, hhy, hempty, Bool.false_eq_true, if_false]
  constructor
  · by_cases hA : ∃ b ∈ basins, b ∉ (add_hydroatlas_attributes_to_camels df hy pca).map (·.1)
    · obtain ⟨b, hb, hnot⟩ := hA
      rw [if_pos (List.any_eq_true.mpr ⟨b, hb, decide_eq_true hnot⟩)]
      exact ⟨fun _ => ⟨b, hb, hnot⟩, fun _ => rfl⟩
    · have hany : basins.any
          (fun b => b ∉ (add_hydroatlas_attributes_to_camels df hy pca).map (·.1)) = false := by
        rw [Bool.eq_false_iff]
        intro hc
        obtain ⟨b, hb, hdec⟩ := List.any_eq_true.mp hc
        exact hA ⟨b, hb, of_decide_eq_true hdec⟩
      rw [if_neg (by rw [hany]; exact Bool.false_ne_true)]
      exact ⟨fun hc => absurd hc (by simp), fun hc => absurd hc hA⟩
  · intro hall
    have hany : basins.any
        (fun b => b ∉ (add_hydroatlas_attributes_to_camels df hy pca).map (·.1)) = false := by
      rw [Bool.eq_false_iff]
      intro hc
      obtain ⟨b, hb, hdec⟩ := List.any_eq_true.mp hc
      exact of_decide_eq_true hdec (hall b hb)
    rw [if_neg (by rw [hany]; exact Bool.false_ne_true)]
    refine ⟨_, rfl, ?_⟩
    have hJnd : ((add_hydroatlas_attributes_to_camels df hy pca).map (·.1)).Nodup := by
      unfold add_hydroatlas_attributes_to_camels
      rw [joinLeft_map_fst, joinLeft_map_fst, hdf', List.map_map]
      exact hnd
    exact flatMap_filter_map_fst hJnd hall

theorem attributes_missing_basin_validation_witness :
    (load_all_attributes ["01013500"] [] true [("01013500", [("area", some 3)])] true true
        ⟨["h1"], []⟩ ⟨["p1"], []⟩ ["01013500"] = .error .missingAttributes ↔
      ∃ b ∈ ["01013500"],
        b ∉ (add_hydroatlas_attributes_to_camels
          [("01013500", [("area", some 3), ("huc", none)])] ⟨["h1"], []⟩ ⟨["p1"], []⟩).map (·.1)) ∧
    ((∀ b ∈ ["01013500"],
        b ∈ (add_hydroatlas_attributes_to_camels
          [("01013500", [("area", some 3), ("huc", none)])] ⟨["h1"], []⟩ ⟨["p1"], []⟩).map (·.1)) →
      ∃ out,
        load_all_attributes ["01013500"] [] true [("01013500", [("area", some 3)])] true true
          ⟨["h1"], []⟩ ⟨["p1"], []⟩ ["01013500"] = .ok out ∧
        out.map (·.1) = ["01013500"]) :=
  attributes_missing_basin_validation ["01013500"] [] [("01013500", [("area", some 3)])]
    ⟨["h1"], []⟩ ⟨["p1"], []⟩ ["01013500"] (by decide) (by decide)
    [("01013500", [("area", some 3), ("huc", none)])] ⟨["h1"], []⟩ ⟨["p1"], []⟩
    (by decide) (by decide)

/-- C10: with an empty requested basin list, the missing-attributes
validation and the row filtering are both skipped (`if basins:` is
false): no "missing static attributes" error can be raised, the result
holds one row per basin of the parsed CAMELS attribute files, and the two
HydroAtlas tables — filtered to the empty basin set — contribute their
columns filled entirely with missing-markers. -/
theorem empty_basin_list_attributes (camelsList hydroList : List String)
    (camelsRaw : AttrRows) (hyRaw pcaRaw : AuxTable) :
    load_all_attributes camelsList hydroList true camelsRaw true true hyRaw pcaRaw [] =
      .ok (camelsRaw.map (fun p =>
        (p.1, hucProcess p.2 ++ hyRaw.cols.map (fun c => (c, (none : Option ℚ)))
          ++ pcaRaw.cols.map (fun c => (c, (none : Option ℚ)))))) := by
  unfold load_all_attributes load_camels_attributes load_camels_hydroatlas
    add_hydroatlas_attributes_to_camels joinLeft
  simp [List.map_map, Function.comp]

theorem nat_min?_spec {l : List Nat} {a : Nat} (h : l.min? = some a) :
    a ∈ l ∧ ∀ b ∈ l, a ≤ b :=
  (List.min?_eq_some_iff (fun _ => le_refl _) min_choice (fun _ _ _ => le_min_iff)).mp h

theorem nat_max?_spec {l : List Nat} {a : Nat} (h : l.max? = some a) :
    a ∈ l ∧ ∀ b ∈ l, b ≤ a :=
  (List.max?_eq_some_iff (fun _ => le_refl _) max_choice (fun _ _ _ => max_le_iff)).mp h

theorem selectBasinColumn_dates (f : Frame) (b : String) :
    (selectBasinColumn f b).map (·.1) = f.index := by
  unfold selectBasinColumn Frame.index
  rw [List.map_map]
  rfl

theorem hydro_concat_index (a b c d e : DSeries) :
    (hydro_concat a b c d e).index =
      (a.map (·.1) ++ b.map (·.1) ++ c.map (·.1) ++ d.map (·.1) ++ e.map (·.1)).dedup := by
  simp only [hydro_concat, Frame.index, List.map_map]
  exact List.map_id'' (fun _ => rfl) _

theorem reindexDaily_index (f : Frame) (cols : List String) (lo hi : Nat) :
    (reindexDaily f cols lo hi).index = dateRange lo hi := by
  simp only [reindexDaily, Frame.index, List.map_map]
  exact List.map_id'' (fun _ => rfl) _

theorem mem_dateRange_of {lo hi t : Nat} (h1 : lo ≤ t) (h2 : t ≤ hi) :
    t ∈ dateRange lo hi :=
  List.mem_map.mpr ⟨t - lo, List.mem_range.mpr (by omega), by omega⟩

theorem hydro_concat_row_cols (a b c d e : DSeries) :
    ∀ p ∈ (hydro_concat a b c d e).rows, p.2.map (·.1) = hydroCols := by
  intro p hp
  obtain ⟨t, _, rfl⟩ := List.mem_map.mp hp
  rfl

theorem reindexDaily_rows_shape (f : Frame) (cols : List String) (lo hi : Nat)
    (hrows : ∀ p ∈ f.rows, p.2.map (·.1) = cols) :
    ∀ p ∈ (reindexDaily f cols lo hi).rows,
      p.2.map (·.1) = cols ∧
      (p.1 ∉ f.index → p.2 = cols.map (fun c => (c, (none : Option ℚ)))) := by
  intro p hp
  simp only [reindexDaily, List.mem_map] at hp
  obtain ⟨t, ht, rfl⟩ := hp
  constructor
  · rcases hfind : List.find? (fun q => q.1 = t) f.rows with _ | q
    · simp only [hfind, List.map_map]
      exact List.map_id'' (fun _ => rfl) _
    · simp only [hfind]
      exact hrows q (List.mem_of_find?_eq_some hfind)
  · intro hnotin
    have hfind : List.find? (fun q => q.1 = t) f.rows = none := by
      rw [List.find?_eq_none]
      intro x hx hxt
      exact hnotin (of_decide_eq_true hxt ▸ List.mem_map_of_mem (·.1) hx)
    simp only [hfind]

/-- C8: whenever `load_hydroatlas12_daily_forcing` returns a table, that
table has exactly the five forcing columns (precipitation, shortwave
radiation, surface pressure, max and min 2 m temperature) in every row,
its date index is the complete daily calendar from the minimum to the
maximum date observed across the five source files — with no gaps — and
dates carried by no source file hold missing-markers in all five
columns. -/
theorem hydroatlas_forcing_calendar (apcp dswrf pres tmax tmin : Frame) (basin : String)
    (out : Frame)
    (h : load_hydroatlas12_daily_forcing apcp dswrf pres tmax tmin basin = .ok out) :
    ∃ lo hi,
      lo ∈ apcp.index ++ dswrf.index ++ pres.index ++ tmax.index ++ tmin.index ∧
      hi ∈ apcp.index ++ dswrf.index ++ pres.index ++ tmax.index ++ tmin.index ∧
      (∀ t ∈ apcp.index ++ dswrf.index ++ pres.index ++ tmax.index ++ tmin.index,
        lo ≤ t ∧ t ≤ hi) ∧
      out.index = dateRange lo hi ∧
      (∀ t, lo ≤ t → t ≤ hi → t ∈ out.index) ∧
      (∀ p ∈ out.rows, p.2.map (·.1) = hydroCols) ∧
      (∀ p ∈ out.rows,
        p.1 ∉ apcp.index ++ dswrf.index ++ pres.index ++ tmax.index ++ tmin.index →
        p.2.map (fun q => q.2) = [none, none, none, none, none]) := by
  simp only [load_hydroatlas12_daily_forcing] at h
  split at h
  case h_2 => exact absurd h (by simp)
  case h_1 lo hi hmin hmax =>
    rw [Except.ok.injEq] at h
    subst h
    have hCidx : (hydro_concat (selectBasinColumn apcp basin) (selectBasinColumn dswrf basin)
        (selectBasinColumn pres basin) (selectBasinColumn tmax basin)
        (selectBasinColumn tmin basin)).index =
        (apcp.index ++ dswrf.index ++ pres.index ++ tmax.index ++ tmin.index).dedup := by
      rw [hydro_concat_index, selectBasinColumn_dates, selectBasinColumn_dates,
        selectBasinColumn_dates, selectBasinColumn_dates, selectBasinColumn_dates]
    have memC : ∀ t, t ∈ (hydro_concat (selectBasinColumn apcp basin)
        (selectBasinColumn dswrf basin) (selectBasinColumn pres basin)
        (selectBasinColumn tmax basin) (selectBasinColumn tmin basin)).index ↔
        t ∈ apcp.index ++ dswrf.index ++ pres.index ++ tmax.index ++ tmin.index := by
      intro t
      rw [hCidx]
      exact List.mem_dedup
    obtain ⟨hlomem, hlole⟩ := nat_min?_spec hmin
    obtain ⟨hhimem, hhile⟩ := nat_max?_spec hmax
    refine ⟨lo, hi, (memC lo).mp hlomem, (memC hi).mp hhimem, ?_, reindexDaily_index _ _ _ _,
      ?_, ?_, ?_⟩
    · intro t ht
      exact ⟨hlole t ((memC t).mpr ht), hhile t ((memC t).mpr ht)⟩
    · intro t h1 h2
      rw [reindexDaily_index]
      exact mem_dateRange_of h1 h2
    · intro p hp
      exact (reindexDaily_rows_shape _ _ _ _ (hydro_concat_row_cols _ _ _ _ _) p hp).1
    · intro p hp hnot
      have h2 := (reindexDaily_rows_shape _ _ _ _ (hydro_concat_row_cols _ _ _ _ _) p hp).2
        (fun hmem => hnot ((memC p.1).mp hmem))
      rw [h2]
      rfl

theorem hydroatlas_forcing_calendar_witness :
    ∃ lo hi,
      lo ∈ Frame.index ⟨[(3, [("b", some 1)])]⟩ ++ Frame.index ⟨[(5, [("b", some 2)])]⟩
        ++ Frame.index ⟨[]⟩ ++ Frame.index ⟨[]⟩ ++ Frame.index ⟨[]⟩ ∧
      hi ∈ Frame.index ⟨[(3, [("b", some 1)])]⟩ ++ Frame.index ⟨[(5, [("b", some 2)])]⟩
        ++ Frame.index ⟨[]⟩ ++ Frame.index ⟨[]⟩ ++ Frame.index ⟨[]⟩ ∧
      (∀ t ∈ Frame.index ⟨[(3, [("b", some 1)])]⟩ ++ Frame.index ⟨[(5, [("b", some 2)])]⟩
        ++ Frame.index ⟨[]⟩ ++ Frame.index ⟨[]⟩ ++ Frame.index ⟨[]⟩, lo ≤ t ∧ t ≤ hi) ∧
      Frame.index ⟨[(3, [("apcpsfc", some 1), ("dswrfsfc", none), ("pressfc", none),
            ("tmp2m_max", none), ("tmp2m_min", none)]),
          (4, [("apcpsfc", none), ("dswrfsfc", none), ("pressfc", none),
            ("tmp2m_max", none), ("tmp2m_min", none)]),
          (5, [("apcpsfc", none), ("dswrfsfc", some 2), ("pressfc", none),
            ("tmp2m_max", none), ("tmp2m_min", none)])]⟩ = dateRange lo hi ∧
      (∀ t, lo ≤ t → t ≤ hi →
        t ∈ Frame.index ⟨[(3, [("apcpsfc", some 1), ("dswrfsfc", none), ("pressfc", none),
            ("tmp2m_max", none), ("tmp2m_min", none)]),
          (4, [("apcpsfc", none), ("dswrfsfc", none), ("pressfc", none),
            ("tmp2m_max", none), ("tmp2m_min", none)]),
          (5, [("apcpsfc", none), ("dswrfsfc", some 2), ("pressfc", none),
            ("tmp2m_max", none), ("tmp2m_min", none)])]⟩) ∧
      (∀ p ∈ Frame.rows ⟨[(3, [("apcpsfc", some 1), ("dswrfsfc", none), ("pressfc", none),
            ("tmp2m_max", none), ("tmp2m_min", none)]),
          (4, [("apcpsfc", none), ("dswrfsfc", none), ("pressfc", none),
            ("tmp2m_max", none), ("tmp2m_min", none)]),
          (5, [("apcpsfc", none), ("dswrfsfc", some 2), ("pressfc", none),
            ("tmp2m_max", none), ("tmp2m_min", none)])]⟩, p.2.map (·.1) = hydroCols) ∧
      (∀ p ∈ Frame.rows ⟨[(3, [("apcpsfc", some 1), ("dswrfsfc", none), ("pressfc", none),
            ("tmp2m_max", none), ("tmp2m_min", none)]),
          (4, [("apcpsfc", none), ("dswrfsfc", none), ("pressfc", none),
            ("tmp2m_max", none), ("tmp2m_min", none)]),
          (5, [("apcpsfc", none), ("dswrfsfc", some 2), ("pressfc", none),
            ("tmp2m_max", none), ("tmp2m_min", none)])]⟩,
        p.1 ∉ Frame.index ⟨[(3, [("b", some 1)])]⟩ ++ Frame.index ⟨[(5, [("b", some 2)])]⟩
          ++ Frame.index ⟨[]⟩ ++ Frame.index ⟨[]⟩ ++ Frame.index ⟨[]⟩ →
        p.2.map (fun q => q.2) = [none, none, none, none, none]) :=
  hydroatlas_forcing_calendar ⟨[(3, [("b", some 1)])]⟩ ⟨[(5, [("b", some 2)])]⟩
    ⟨[]⟩ ⟨[]⟩ ⟨[]⟩ "b"
    ⟨[(3, [("apcpsfc", some 1), ("dswrfsfc", none), ("pressfc", none),
        ("tmp2m_max", none), ("tmp2m_min", none)]),
      (4, [("apcpsfc", none), ("dswrfsfc", none), ("pressfc", none),
        ("tmp2m_max", none), ("tmp2m_min", none)]),
      (5, [("apcpsfc", none), ("dswrfsfc", some 2), ("pressfc", none),
        ("tmp2m_max", none), ("tmp2m_min", none)])]⟩ (by decide)

end ColoradoSWE
